import Mathlib

/-!
Verification of the layout engine (scrollable-tiling compositor core).

This file shallowly embeds the two source modules:

* `src/layout.rs` — `MonitorSet`, `Monitor`, `Workspace`, `Column`,
  `ColumnWidth`, and the hotplug / window operations;
* `src/layout/workspaces.rs` — the double-ended `Workspaces` sequence with
  its external index space and switch animation bookkeeping.

Conventions of the embedding:

* Rust `i32` / `isize` become `Int`; Rust `usize` becomes `Nat` (all the
  quantities involved stay far from the overflow boundary in the claims
  settled here, and the source itself treats them as unbounded indices).
* Rust `f64` becomes `ℚ` (the source only multiplies, compares and floors
  these values; no rounding-sensitive claim is settled through them).
* Functions that can `panic!` / `unwrap` / index out of bounds return
  `Option`, with `none` standing for the abort.
* Side effects that do not change layout state (`request_size`,
  `set_activate`, `send_pending_configure`, `output_enter`/`output_leave`,
  frame callbacks) are dropped; `Column::update_window_sizes` is embedded
  as the pure function computing the size it requests.
-/

/-- Logical size (`Size<i32, Logical>`): width and height in pixels. -/
structure Sz where
  w : Int
  h : Int
deriving DecidableEq, Repr

/-- A live output (smithay `Output`). `name` is its identity; `size` is the
resolved logical size (`output_size` in the source applies the transform and
integer scale of the current mode; that is collaborator state, so the embedded
output carries the resulting logical size directly). -/
structure Output where
  name : Nat
  size : Sz
deriving DecidableEq, Repr

/-- `OutputId(String)`: stable name-derived identity of an output. -/
abbrev OutputId := Nat

/-- `OutputId::new`. -/
def OutputId.new (o : Output) : OutputId := o.name

/-- `output_size(output)`. -/
def output_size (o : Output) : Sz := o.size

/-- `const PADDING: i32 = 16`. -/
def PADDING : Int := 16

/-! ## `src/layout/workspaces.rs` — the `Workspaces` sequence

The element type `Workspace<W>` lives in `layout/workspace.rs`, which is not
part of the sources; the operations embedded here only ever call `id()` on an
element, so the element type is kept abstract (`α`) and an id projection is
passed where the source calls `w.id()`. -/

/-- Modelled from the spec: `WorkspaceSwitch` / `Animation` (from
`layout/monitor.rs` and `animation.rs`, which are not part of the sources).
Per the spec, an in-flight switch is a value with a source and a target
internal position, and `current_idx()` is its live fractional position, a pure
function of elapsed time sampled on each query.  The embedding stores the
start and target values and carries the live position `current` as data (the
clock is external, so the position at the moment of a call is an input). -/
structure WorkspaceSwitch where
  start : ℚ
  target : ℚ
  /-- `current_idx()`: the live fractional position right now. -/
  current : ℚ
deriving DecidableEq, Repr

/-- `Workspaces<W>` (the clock, output and options fields are collaborator
handles that the embedded operations do not read, except for
`empty_workspace_above_first` which none of the settled claims exercises). -/
structure Workspaces (α : Type) where
  workspaces : List α
  active_workspace_idx : Int
  workspace_idx_offset : Nat
  previous_workspace_id : Option Nat
  workspace_switch : Option WorkspaceSwitch
deriving Repr

namespace Workspaces

variable {α : Type}

/-- `to_internal_index`: `external + offset` (as a signed value; the source
casts to `usize`, so a negative result is an out-of-bounds abort). -/
def to_internal_index (s : Workspaces α) (external : Int) : Int :=
  external + (s.workspace_idx_offset : Int)

/-- `to_external_index`: `internal as isize - offset as isize`. -/
def to_external_index (s : Workspaces α) (internal : Nat) : Int :=
  (internal : Int) - (s.workspace_idx_offset : Int)

/-- `index_of_id`: position of the workspace with this id, externalised. -/
def index_of_id (wid : α → Nat) (s : Workspaces α) (id : Nat) : Option Int :=
  (s.workspaces.findIdx? (fun w => wid w = id)).map s.to_external_index

/-- `push_front`: prepend and increment the offset. -/
def push_front (s : Workspaces α) (w : α) : Workspaces α :=
  { s with
    workspaces := w :: s.workspaces
    workspace_idx_offset := s.workspace_idx_offset + 1 }

/-- `pop_front`: panics (`none`) unless more than one workspace remains;
otherwise increments the offset and removes the front element. -/
def pop_front (s : Workspaces α) : Option (α × Workspaces α) :=
  if s.workspaces.length > 1 then
    match s.workspaces with
    | [] => none
    | w :: rest =>
      some (w, { s with
        workspaces := rest
        workspace_idx_offset := s.workspace_idx_offset + 1 })
  else
    none

/-- `push_back`: append; the offset is untouched. -/
def push_back (s : Workspaces α) (w : α) : Workspaces α :=
  { s with workspaces := s.workspaces ++ [w] }

/-- `pop_back`: panics (`none`) unless more than one workspace remains;
otherwise increments the offset and removes the back element (the source
increments `workspace_idx_offset` here exactly as in `pop_front`). -/
def pop_back (s : Workspaces α) : Option (α × Workspaces α) :=
  if s.workspaces.length > 1 then
    match s.workspaces.getLast? with
    | none => none
    | some w =>
      some (w, { s with
        workspaces := s.workspaces.dropLast
        workspace_idx_offset := s.workspace_idx_offset + 1 })
  else
    none

/-- `activate_workspace(idx)`.  Returns `none` exactly when the source would
abort indexing the current active workspace (invalid internal index). -/
def activate_workspace (wid : α → Nat) (s : Workspaces α) (idx : Int) :
    Option (Workspaces α) :=
  if s.active_workspace_idx = idx then
    some s
  else
    let current_idx : ℚ :=
      match s.workspace_switch with
      | some sw => sw.current
      | none => (s.to_internal_index s.active_workspace_idx : ℚ)
    let internal := s.to_internal_index s.active_workspace_idx
    if internal < 0 then
      none
    else
      match s.workspaces[internal.toNat]? with
      | none => none
      | some activeWs =>
        some { s with
          previous_workspace_id := some (wid activeWs)
          active_workspace_idx := idx
          workspace_switch := some
            { start := current_idx
              target := (s.to_internal_index idx : ℚ)
              current := current_idx } }

/-- Iterated `push_front` (used to state the index-stability property). -/
def push_front_many (s : Workspaces α) : List α → Workspaces α
  | [] => s
  | w :: ws => push_front_many (s.push_front w) ws

/-- Iterated `pop_front`. -/
def pop_front_many (s : Workspaces α) : Nat → Option (Workspaces α)
  | 0 => some s
  | n + 1 =>
    match s.pop_front with
    | none => none
    | some (_, s') => pop_front_many s' n

end Workspaces

/-! ## `src/layout.rs` — columns, workspaces, monitors, `MonitorSet`

The window type `W` is abstract, as in the source (`W: LayoutElement`); the
only capability the embedded operations read is `min_size()`. -/

/-- The part of the `LayoutElement` capability interface that the embedded
layout computations read: the advertised minimum size (`0` on an axis means
no constraint). -/
class LayoutElement (W : Type) where
  min_size : W → Sz

/-- `ColumnWidth`: proportion of the current view width, or fixed pixels. -/
inductive ColumnWidth
  | Proportion (proportion : ℚ)
  | Fixed (width : Int)
deriving DecidableEq, Repr

namespace ColumnWidth

/-- `ColumnWidth::resolve(view_width)`: a proportional width is
`(view_width as f64 * proportion).floor() as i32`; a fixed width is returned
verbatim. -/
def resolve : ColumnWidth → Int → Int
  | Proportion proportion, view_width => ⌊(view_width : ℚ) * proportion⌋
  | Fixed width, _ => width

/-- `ColumnWidth::default()`: `Proportion(0.5)`. -/
def default : ColumnWidth := Proportion (1 / 2)

end ColumnWidth

/-- `Column<W>`: a non-empty stack of windows with an active index and a
desired width. -/
structure Column (W : Type) where
  windows : List W
  active_window_idx : Nat
  width : ColumnWidth
deriving DecidableEq, Repr

namespace Column

variable {W : Type} [DecidableEq W]

/-- `Column::contains`. -/
def contains (c : Column W) (w : W) : Bool := c.windows.contains w

/-- `Column::new(window, view_size)`: a single-window column with the default
width (the `update_window_sizes` call inside only issues size requests). -/
def mkNew (w : W) : Column W :=
  { windows := [w], active_window_idx := 0, width := ColumnWidth.default }

/-- The size `Column::update_window_sizes(view_size)` requests for every
window of the column:

* `min_width` = the maximum declared minimum width over windows whose
  declared minimum width is non-zero, defaulting to `1`;
* `width` = `self.width.resolve(view_size.w - PADDING) - PADDING`;
* `height` = `(view_size.h - PADDING) / count - PADDING` (`i32` division,
  truncating toward zero);
* requested size = `(max(width, min_width), max(height, 1))`. -/
def requested_size [LayoutElement W] (c : Column W) (view_size : Sz) : Sz :=
  let min_width :=
    (((c.windows.map (fun w => (LayoutElement.min_size w).w)).filter
      (fun w => w ≠ 0)).max?).getD 1
  let width := c.width.resolve (view_size.w - PADDING) - PADDING
  let height :=
    Int.tdiv (view_size.h - PADDING) (c.windows.length : Int) - PADDING
  { w := max width min_width, h := max height 1 }

end Column

/-- `Workspace<W>` of `src/layout.rs`. -/
structure Workspace (W : Type) where
  original_output : OutputId
  output : Option Output
  view_size : Sz
  columns : List (Column W)
  active_column_idx : Nat
  view_offset : Int
deriving DecidableEq, Repr

namespace Workspace

variable {W : Type} [DecidableEq W]

/-- `Workspace::new(output)`. -/
def mkNew (o : Output) : Workspace W :=
  { original_output := OutputId.new o
    output := some o
    view_size := output_size o
    columns := []
    active_column_idx := 0
    view_offset := 0 }

/-- `windows()`: all windows, column by column. -/
def windows (ws : Workspace W) : List W :=
  (ws.columns.map (fun c => c.windows)).flatten

/-- `has_windows()`. -/
def has_windows (ws : Workspace W) : Bool := !ws.windows.isEmpty

/-- `has_window(window)`. -/
def has_window (ws : Workspace W) (w : W) : Bool := ws.windows.contains w

/-- `set_output(output)`: no-op when unchanged; binding a new output also
recomputes `view_size` from it (`set_view_size(output_size(..))`); unbinding
keeps the last known `view_size`.  The enter/leave notifications do not touch
layout state. -/
def set_output (ws : Workspace W) (o : Option Output) : Workspace W :=
  if ws.output = o then ws
  else
    match o with
    | some out =>
      { ws with output := some out, view_size := output_size out }
    | none => { ws with output := none }

/-- `add_window(window, activate)`: insert a fresh single-window column right
after the active column (at 0 when there are no columns); when `activate`,
the new column becomes active. -/
def add_window (ws : Workspace W) (w : W) (activate : Bool) : Workspace W :=
  let idx := if ws.columns.isEmpty then 0 else ws.active_column_idx + 1
  { ws with
    columns := ws.columns.insertIdx idx (Column.mkNew w)
    active_column_idx := if activate then idx else ws.active_column_idx }

/-- `remove_window(window)`: `none` is the `position(..).unwrap()` panic when
no column holds the window.  Otherwise the first matching column loses its
first occurrence of the window; an emptied column is removed (clamping the
workspace's active column index unless no column remains), and a surviving
column clamps its own active window index. -/
def remove_window (ws : Workspace W) (w : W) : Option (Workspace W) :=
  match ws.columns.findIdx? (fun c => c.contains w) with
  | none => none
  | some column_idx =>
    match ws.columns[column_idx]? with
    | none => none
    | some col =>
      let windows' := col.windows.erase w
      if windows'.isEmpty then
        let columns' := ws.columns.eraseIdx column_idx
        if columns'.isEmpty then
          some { ws with columns := [] }
        else
          some { ws with
            columns := columns'
            active_column_idx :=
              min ws.active_column_idx (columns'.length - 1) }
      else
        let col' := { col with
          windows := windows'
          active_window_idx :=
            min col.active_window_idx (windows'.length - 1) }
        some { ws with columns := ws.columns.set column_idx col' }

end Workspace

/-- `Monitor<W>`. -/
structure Monitor (W : Type) where
  output : Output
  workspaces : List (Workspace W)
  active_workspace_idx : Nat
deriving DecidableEq, Repr

/-- `MonitorSet<W>`. -/
inductive MonitorSet (W : Type)
  | Normal (monitors : List (Monitor W)) (primary_idx : Nat)
      (active_monitor_idx : Nat)
  | NoOutputs (workspaces : List (Workspace W))
deriving DecidableEq, Repr

namespace MonitorSet

variable {W : Type} [DecidableEq W]

/-- All workspaces of the set, monitor by monitor. -/
def all_workspaces : MonitorSet W → List (Workspace W)
  | Normal monitors _ _ => (monitors.map (fun m => m.workspaces)).flatten
  | NoOutputs workspaces => workspaces

/-- All windows of the set. -/
def all_windows (ms : MonitorSet W) : List W :=
  (ms.all_workspaces.map (fun ws => ws.windows)).flatten

/-- `MonitorSet::add_output(output)`.

In the `Normal` arm the source walks the primary's workspace list from the
back, removing every workspace whose `original_output` matches the new
output's id and pushing it, then reverses the collected list; that is exactly
an order-preserving partition of the primary's list by the id test.  When all
collected workspaces have windows, a fresh empty workspace is appended; the
collected workspaces are rebound and become a new (non-primary, non-active)
monitor at the end.  `none` is the out-of-bounds abort on `primary_idx`. -/
def add_output (ms : MonitorSet W) (o : Output) : Option (MonitorSet W) :=
  let id := OutputId.new o
  match ms with
  | Normal monitors primary_idx active_monitor_idx =>
    match monitors[primary_idx]? with
    | none => none
    | some primary =>
      let moved := primary.workspaces.filter
        (fun ws => ws.original_output = id)
      let kept := primary.workspaces.filter
        (fun ws => ws.original_output ≠ id)
      let moved :=
        if moved.all (fun ws => ws.has_windows) then
          moved ++ [Workspace.mkNew o]
        else moved
      let moved := moved.map (fun ws => ws.set_output (some o))
      some (Normal
        ((monitors.set primary_idx { primary with workspaces := kept }) ++
          [{ output := o, workspaces := moved, active_workspace_idx := 0 }])
        primary_idx active_monitor_idx)
  | NoOutputs workspaces =>
    let workspaces := workspaces ++ [Workspace.mkNew o]
    let workspaces := workspaces.map (fun ws => ws.set_output (some o))
    some (Normal
      [{ output := o, workspaces := workspaces, active_workspace_idx := 0 }]
      0 0)

/-- `MonitorSet::remove_output(output)`.

`none` covers the `expect("trying to remove non-existing output")` abort, the
`panic!` in the `NoOutputs` arm, and the aborts from indexing an invalid
primary or removing the trailing workspace of an empty primary list.  The
removed monitor's workspaces are unbound, emptied ones dropped; with no
monitor left the set becomes `NoOutputs`, otherwise the survivors are rebound
to the (index-adjusted) primary and spliced in before its last workspace. -/
def remove_output (ms : MonitorSet W) (o : Output) : Option (MonitorSet W) :=
  match ms with
  | NoOutputs _ => none
  | Normal monitors primary_idx active_monitor_idx =>
    match monitors.findIdx? (fun mon => mon.output = o) with
    | none => none
    | some idx =>
      match monitors[idx]? with
      | none => none
      | some monitor =>
        let monitors' := monitors.eraseIdx idx
        let wss := monitor.workspaces.map (fun ws => ws.set_output none)
        let wss := wss.filter (fun ws => ws.has_windows)
        if monitors'.isEmpty then
          some (NoOutputs wss)
        else
          let primary_idx' :=
            if primary_idx ≥ idx then primary_idx - 1 else primary_idx
          let active_monitor_idx' :=
            if active_monitor_idx ≥ idx then active_monitor_idx - 1
            else active_monitor_idx
          match monitors'[primary_idx']? with
          | none => none
          | some primary =>
            match primary.workspaces.getLast? with
            | none => none
            | some last_ws =>
              let wss := wss.map
                (fun ws => ws.set_output (some primary.output))
              let primary' := { primary with
                workspaces :=
                  primary.workspaces.dropLast ++ wss ++ [last_ws] }
              some (Normal (monitors'.set primary_idx' primary')
                primary_idx' active_monitor_idx')

/-- `MonitorSet::add_window(monitor_idx, workspace_idx, window, activate)`.
`none` covers the `panic!` on `NoOutputs` and out-of-bounds indexing.  When
the target workspace is the last one, a fresh empty workspace is appended
afterwards. -/
def add_window (ms : MonitorSet W) (monitor_idx workspace_idx : Nat) (w : W)
    (activate : Bool) : Option (MonitorSet W) :=
  match ms with
  | NoOutputs _ => none
  | Normal monitors primary_idx active_monitor_idx =>
    match monitors[monitor_idx]? with
    | none => none
    | some monitor =>
      match monitor.workspaces[workspace_idx]? with
      | none => none
      | some ws =>
        let active_monitor_idx' :=
          if activate then monitor_idx else active_monitor_idx
        let monitor :=
          if activate then { monitor with active_workspace_idx := workspace_idx }
          else monitor
        let wss := monitor.workspaces.set workspace_idx
          (ws.add_window w activate)
        let wss :=
          if workspace_idx = monitor.workspaces.length - 1 then
            wss ++ [Workspace.mkNew monitor.output]
          else wss
        some (Normal
          (monitors.set monitor_idx { monitor with workspaces := wss })
          primary_idx active_monitor_idx')

end MonitorSet

/-- The per-monitor body of `MonitorSet::remove_window`: the first workspace
holding the window loses it, and is dropped afterwards when it became empty
while being neither the active workspace nor the last one.  Monitors not
holding the window are untouched. -/
def Monitor.remove_window_here {W : Type} [DecidableEq W] (mon : Monitor W)
    (w : W) : Option (Monitor W) :=
  match mon.workspaces.findIdx? (fun ws => ws.has_window w) with
  | none => some mon
  | some idx =>
    match mon.workspaces[idx]? with
    | none => none
    | some ws =>
      match ws.remove_window w with
      | none => none
      | some ws' =>
        let wss := mon.workspaces.set idx ws'
        let wss :=
          if ¬ws'.has_windows ∧ idx ≠ mon.active_workspace_idx ∧
              idx ≠ mon.workspaces.length - 1 then
            wss.eraseIdx idx
          else wss
        some { mon with workspaces := wss }

namespace MonitorSet

variable {W : Type} [DecidableEq W]

/-- `MonitorSet::remove_window(window)`: every monitor is visited (the
source's `break` only leaves the inner workspace loop); in `NoOutputs` the
first holding workspace loses the window and is dropped when emptied. -/
def remove_window (ms : MonitorSet W) (w : W) : Option (MonitorSet W) :=
  match ms with
  | Normal monitors primary_idx active_monitor_idx =>
    (monitors.mapM (fun (mon : Monitor W) => mon.remove_window_here w)).map
      (fun monitors' => Normal monitors' primary_idx active_monitor_idx)
  | NoOutputs workspaces =>
    match workspaces.findIdx? (fun ws => ws.has_window w) with
    | none => some (NoOutputs workspaces)
    | some idx =>
      match workspaces[idx]? with
      | none => none
      | some ws =>
        match ws.remove_window w with
        | none => none
        | some ws' =>
          let wss := workspaces.set idx ws'
          let wss := if ¬ws'.has_windows then wss.eraseIdx idx else wss
          some (NoOutputs wss)

end MonitorSet

/-- One `add_window` / `remove_window` command, for stating properties of
operation sequences. -/
inductive LayoutOp (W : Type)
  | addWindow (monitor_idx workspace_idx : Nat) (w : W) (activate : Bool)
  | removeWindow (w : W)

/-- Run one command. -/
def applyOp {W : Type} [DecidableEq W] (ms : MonitorSet W) :
    LayoutOp W → Option (MonitorSet W)
  | .addWindow mi wi w activate => ms.add_window mi wi w activate
  | .removeWindow w => ms.remove_window w

/-- Run a command sequence, aborting as the source would. -/
def applyOps {W : Type} [DecidableEq W] (ms : MonitorSet W)
    (ops : List (LayoutOp W)) : Option (MonitorSet W) :=
  ops.foldlM applyOp ms

/-! ## A concrete window type for evaluating the model on explicit inputs -/

/-- A test window: an identity plus a declared minimum size. -/
structure TestWin where
  ident : Nat
  minsz : Sz
deriving DecidableEq, Repr

instance : LayoutElement TestWin := ⟨fun w => w.minsz⟩

/-! ## Helper lemmas -/

/-- Setting an index to the element already there is the identity. -/
theorem list_set_getElem?_self {α : Type} {l : List α} {i : Nat} {x : α}
    (h : l[i]? = some x) : l.set i x = l := by
  induction l generalizing i with
  | nil => simp at h
  | cons a t ih =>
    cases i with
    | zero => simp_all
    | succ j =>
      simp only [List.getElem?_cons_succ] at h
      simp [List.set_cons_succ, ih h]

/-- `max?` with default and `maximum` with default agree on integer lists. -/
theorem max?_getD_eq_maximum_unbot' (l : List Int) (d : Int) :
    l.max?.getD d = l.maximum.unbot' d := by
  induction l with
  | nil => simp [List.max?_nil, List.maximum_nil, WithBot.unbot']
  | cons x xs ih =>
    rw [List.max?_cons, List.maximum_cons]
    cases hxs : xs.max? with
    | none =>
      have : xs = [] := List.max?_eq_none_iff.mp hxs
      subst this
      simp [List.maximum_nil, WithBot.unbot']
    | some m =>
      have hmx : xs.maximum = (m : WithBot Int) := by
        haveI : Std.Antisymm (fun x1 x2 : Int => x1 ≤ x2) :=
          ⟨fun h h' => le_antisymm h h'⟩
        have h1 := List.max?_eq_some_iff (fun a => le_refl a)
          (fun a b => max_choice a b) (fun a b c => max_le_iff) |>.mp hxs
        exact List.maximum_eq_coe_iff.mpr h1
      simp only [hmx, Option.getD_some, Option.elim_some]
      rfl

/-! ## C2 — index stability under push_front / pop_front

The claim asserts that `N` `push_front`s followed by `N` `pop_front`s restore
the external index of every untouched workspace.  In the source *both*
`push_front` and `pop_front` increment `workspace_idx_offset`, so a
push/pop round trip leaves the stored workspaces unchanged but the offset
larger by `2N`, shifting every external index down by `2N`.  The theorem
evaluates the model at the smallest failing input (`N = 1`). -/

/-- C2: on the sequence holding workspaces with ids `[10, 11]` (offset 0),
the external index of workspace `11` is `1`; after `push_front` of a
workspace `20` followed by one `pop_front`, the stored workspaces are
`[10, 11]` again but the external index of workspace `11` is now `-1`,
not `1` as the claim requires. -/
theorem c2_push_pop_front_shifts_external_index :
    Workspaces.index_of_id (fun n => n)
        (⟨[10, 11], 0, 0, none, none⟩ : Workspaces Nat) 11 = some 1 ∧
    ((Workspaces.push_front_many
        (⟨[10, 11], 0, 0, none, none⟩ : Workspaces Nat) [20]).pop_front_many 1).map
      (fun s => (s.workspaces, s.index_of_id (fun n => n) 11)) =
      some ([10, 11], some (-1)) := by
  decide

/-! ## C3 — effect of the four deque operations on `workspace_idx_offset`

`push_front` and `pop_front` increment the offset and `push_back` leaves it
unchanged, as claimed; but `pop_back` in the source also increments the
offset (the claim says it never changes it). -/

/-- C3: evaluated on concrete sequences with offset `0`: `push_front`
yields offset `1`, `pop_front` yields offset `1`, `push_back` keeps offset
`0`, and `pop_back` yields offset `1` — contradicting the claimed
"pop_back leaves the offset unchanged". -/
theorem c3_pop_back_increments_offset :
    (Workspaces.push_front (⟨[7], 0, 0, none, none⟩ : Workspaces Nat)
        9).workspace_idx_offset = 1 ∧
    ((⟨[7, 8], 0, 0, none, none⟩ : Workspaces Nat).pop_front).map
      (fun p => p.2.workspace_idx_offset) = some 1 ∧
    (Workspaces.push_back (⟨[7], 0, 0, none, none⟩ : Workspaces Nat)
        9).workspace_idx_offset = 0 ∧
    ((⟨[7, 8], 0, 0, none, none⟩ : Workspaces Nat).pop_back).map
      (fun p => p.2.workspace_idx_offset) = some 1 := by
  decide

/-! ## C6 — the size requested by `Column::update_window_sizes` -/

/-- The request size as the claim literally states it: the resolved width is
taken <i>of the view width</i> (`resolve(view_size.w)`), everything else as
in the source.  (Stated from the claim's words, for comparison with
`Column.requested_size`, which is the source computation.) -/
def Column.claim_stated_size {W : Type} [LayoutElement W] (c : Column W)
    (view_size : Sz) : Sz :=
  let min_width :=
    (((c.windows.map (fun w => (LayoutElement.min_size w).w)).filter
      (fun w => w ≠ 0)).max?).getD 1
  { w := max (c.width.resolve view_size.w - PADDING) min_width
    h := max
      (Int.tdiv (view_size.h - PADDING) (c.windows.length : Int) - PADDING) 1 }

/-- The request size as the amended claim states it: the resolved width is
taken of `view_size.w - padding`, the required width is the maximum declared
non-zero minimum width or `1` when every window declares `0`.  (Stated from
the amended wording, structured independently of the source computation.) -/
def Column.amended_stated_size {W : Type} [LayoutElement W] (c : Column W)
    (view_size : Sz) : Sz :=
  let declared :=
    (c.windows.map (fun w => (LayoutElement.min_size w).w)).filter
      (fun w => w ≠ 0)
  let required : Int := declared.maximum.unbot' 1
  { w := max (c.width.resolve (view_size.w - PADDING) - PADDING) required
    h := max
      (Int.tdiv (view_size.h - PADDING) (c.windows.length : Int) - PADDING) 1 }

/-- A one-window proportional (half-width) column whose window declares a
minimum width of 1px. -/
def cexCol : Column TestWin :=
  { windows := [{ ident := 0, minsz := { w := 1, h := 0 } }]
    active_window_idx := 0
    width := ColumnWidth.Proportion (1 / 2) }

/-- C6 counterexample: at view size 116×116 the source requests width
`⌊(116-16)·0.5⌋ - 16 = 34`, while the claim's wording (`resolve` of the view
width itself) gives `⌊116·0.5⌋ - 16 = 42`. -/
theorem c6_counterexample :
    Column.requested_size cexCol { w := 116, h := 116 } =
      { w := 34, h := 84 } ∧
    Column.claim_stated_size cexCol { w := 116, h := 116 } =
      { w := 42, h := 84 } := by
  have h1 : (ColumnWidth.Proportion (1 / 2)).resolve (116 - 16) = 50 := by
    simp only [ColumnWidth.resolve]
    norm_num
  have h2 : (ColumnWidth.Proportion (1 / 2)).resolve 116 = 58 := by
    simp only [ColumnWidth.resolve]
    norm_num
  constructor
  · simp only [Column.requested_size, cexCol, h1, LayoutElement.min_size,
      instLayoutElementTestWin, List.map_cons, List.map_nil, List.filter_cons,
      List.filter_nil, List.max?_cons, List.max?_nil, Option.getD_some,
      Option.elim_none, List.length_cons, List.length_nil, PADDING]
    norm_num
  · simp only [Column.claim_stated_size, cexCol, h2, LayoutElement.min_size,
      instLayoutElementTestWin, List.map_cons, List.map_nil, List.filter_cons,
      List.filter_nil, List.max?_cons, List.max?_nil, Option.getD_some,
      Option.elim_none, List.length_cons, List.length_nil, PADDING]
    norm_num

/-- C6 (amended): for every non-empty column, the size requested by
`update_window_sizes` is exactly the amended specification: height
`(view_size.h - padding) / count - padding` floored at 1px, and width
`max(resolve(view_size.w - padding) - padding, required)` where `required`
is the greatest declared non-zero minimum width, or 1px when every window
declares zero. -/
theorem c6_requested_size_follows_amended_spec {W : Type} [LayoutElement W]
    (c : Column W) (view_size : Sz) (_hne : c.windows ≠ []) :
    c.requested_size view_size = c.amended_stated_size view_size := by
  simp only [Column.requested_size, Column.amended_stated_size,
    max?_getD_eq_maximum_unbot']

/-- C6 witness: the amended theorem applied to a concrete fixed-width
two-window column. -/
def c6WitnessCol : Column TestWin :=
  { windows := [{ ident := 0, minsz := { w := 25, h := 0 } },
                { ident := 1, minsz := { w := 0, h := 0 } }]
    active_window_idx := 0
    width := ColumnWidth.Fixed 120 }

theorem c6_requested_size_follows_amended_spec_witness :
    c6WitnessCol.windows ≠ [] ∧
    Column.requested_size c6WitnessCol { w := 200, h := 200 } =
      Column.amended_stated_size c6WitnessCol { w := 200, h := 200 } :=
  ⟨by decide,
    c6_requested_size_follows_amended_spec c6WitnessCol
      { w := 200, h := 200 } (by decide)⟩

/-! ## C7 — requested width respects declared minimum widths -/

/-- C7: every window of a column that declares a non-zero minimum width
receives a width request of at least that minimum, for every view size. -/
theorem c7_requested_width_at_least_min_width {W : Type} [LayoutElement W]
    (c : Column W) (view_size : Sz) (w : W) (hw : w ∈ c.windows)
    (hnz : (LayoutElement.min_size w).w ≠ 0) :
    (LayoutElement.min_size w).w ≤ (c.requested_size view_size).w := by
  simp only [Column.requested_size]
  set lst := (c.windows.map (fun w => (LayoutElement.min_size w).w)).filter
    (fun w => w ≠ 0) with hlst
  have hmem : (LayoutElement.min_size w).w ∈ lst := by
    rw [hlst, List.mem_filter]
    exact ⟨List.mem_map_of_mem _ hw, by simpa using hnz⟩
  cases hm : lst.max? with
  | none =>
    rw [List.max?_eq_none_iff] at hm
    rw [hm] at hmem
    cases hmem
  | some m =>
    haveI : Std.Antisymm (fun x1 x2 : Int => x1 ≤ x2) :=
      ⟨fun h h' => le_antisymm h h'⟩
    have h1 := List.max?_eq_some_iff (fun a => le_refl a)
      (fun a b => max_choice a b) (fun a b c => max_le_iff) |>.mp hm
    have hle : (LayoutElement.min_size w).w ≤ m := h1.2 _ hmem
    exact le_trans hle (le_trans (by simp) (le_max_right _ _))

/-- C7 witness: a window with minimum width 30 in a 10px-fixed-width column
still receives at least 30px. -/
def c7WitnessCol : Column TestWin :=
  { windows := [{ ident := 0, minsz := { w := 30, h := 0 } }]
    active_window_idx := 0
    width := ColumnWidth.Fixed 10 }

theorem c7_requested_width_at_least_min_width_witness :
    (({ ident := 0, minsz := { w := 30, h := 0 } } : TestWin) ∈
      c7WitnessCol.windows) ∧
    ((LayoutElement.min_size
        ({ ident := 0, minsz := { w := 30, h := 0 } } : TestWin)).w ≠ 0) ∧
    (LayoutElement.min_size
        ({ ident := 0, minsz := { w := 30, h := 0 } } : TestWin)).w ≤
      (Column.requested_size c7WitnessCol { w := 100, h := 100 }).w :=
  ⟨by decide, by decide,
    c7_requested_width_at_least_min_width c7WitnessCol { w := 100, h := 100 }
      { ident := 0, minsz := { w := 30, h := 0 } } (by decide) (by decide)⟩

/-! ## C8 — `activate_workspace` -/

/-- C8: `activate_workspace(target)` is a no-op when the target is already
active; otherwise it records the previously active workspace's id as
previous-workspace id, sets the active index to the target, and starts a
switch whose start (and initial current) value is the in-flight switch's
live fractional position when one exists — else the current internal active
index — and whose target value is the target's internal index. -/
theorem c8_activate_workspace_spec {α : Type} (wid : α → Nat)
    (s : Workspaces α) (idx : Int) (aws : α)
    (h0 : 0 ≤ s.to_internal_index s.active_workspace_idx)
    (hws : s.workspaces[(s.to_internal_index s.active_workspace_idx).toNat]? =
      some aws) :
    (s.active_workspace_idx = idx → s.activate_workspace wid idx = some s) ∧
    (s.active_workspace_idx ≠ idx →
      s.activate_workspace wid idx = some
        { s with
          previous_workspace_id := some (wid aws)
          active_workspace_idx := idx
          workspace_switch := some
            { start := s.workspace_switch.elim
                ((s.to_internal_index s.active_workspace_idx : Int) : ℚ)
                (fun sw => sw.current)
              target := ((s.to_internal_index idx : Int) : ℚ)
              current := s.workspace_switch.elim
                ((s.to_internal_index s.active_workspace_idx : Int) : ℚ)
                (fun sw => sw.current) } }) := by
  constructor
  · intro heq
    simp [Workspaces.activate_workspace, heq]
  · intro hne
    rw [Workspaces.activate_workspace, if_neg hne, if_neg (not_lt.mpr h0), hws]
    cases s.workspace_switch <;> rfl

/-- Concrete sequence for the C8 witness: two workspaces, offset 1, active
external index 0 (internal 1), a switch in flight at fractional position
one half. -/
def c8WitnessSeq : Workspaces Nat :=
  { workspaces := [5, 7]
    active_workspace_idx := 0
    workspace_idx_offset := 1
    previous_workspace_id := none
    workspace_switch := some { start := 0, target := 1, current := 1 / 2 } }

/-- C8 witness: the theorem applied to `c8WitnessSeq` with target `-1`. -/
theorem c8_activate_workspace_spec_witness :
    (0 ≤ c8WitnessSeq.to_internal_index c8WitnessSeq.active_workspace_idx) ∧
    (c8WitnessSeq.workspaces[(c8WitnessSeq.to_internal_index
        c8WitnessSeq.active_workspace_idx).toNat]? = some 7) ∧
    (c8WitnessSeq.active_workspace_idx ≠ -1) ∧
    c8WitnessSeq.activate_workspace (fun n => n) (-1) = some
      { c8WitnessSeq with
        previous_workspace_id := some 7
        active_workspace_idx := -1
        workspace_switch := some
          { start := c8WitnessSeq.workspace_switch.elim
              ((c8WitnessSeq.to_internal_index
                c8WitnessSeq.active_workspace_idx : Int) : ℚ)
              (fun sw => sw.current)
            target := ((c8WitnessSeq.to_internal_index (-1) : Int) : ℚ)
            current := c8WitnessSeq.workspace_switch.elim
              ((c8WitnessSeq.to_internal_index
                c8WitnessSeq.active_workspace_idx : Int) : ℚ)
              (fun sw => sw.current) } } :=
  ⟨by decide, by decide, by decide,
    (c8_activate_workspace_spec (fun n => n) c8WitnessSeq (-1) 7
      (by decide) (by decide)).2 (by decide)⟩

/-! ## Facts about `set_output`, `mkNew` and window enumeration -/

namespace Workspace

variable {W : Type} [DecidableEq W]

theorem set_output_original_output (ws : Workspace W) (o : Option Output) :
    (ws.set_output o).original_output = ws.original_output := by
  rw [set_output.eq_def]
  split
  · rfl
  · cases o <;> rfl

theorem set_output_columns (ws : Workspace W) (o : Option Output) :
    (ws.set_output o).columns = ws.columns := by
  rw [set_output.eq_def]
  split
  · rfl
  · cases o <;> rfl

theorem set_output_windows (ws : Workspace W) (o : Option Output) :
    (ws.set_output o).windows = ws.windows := by
  rw [windows, windows, set_output_columns]

theorem set_output_has_windows (ws : Workspace W) (o : Option Output) :
    (ws.set_output o).has_windows = ws.has_windows := by
  rw [has_windows, has_windows, set_output_windows]

theorem mkNew_windows (o : Output) : (mkNew o : Workspace W).windows = [] :=
  rfl

theorem mkNew_has_windows (o : Output) :
    (mkNew o : Workspace W).has_windows = false :=
  rfl

theorem windows_eq_nil_of_not_has_windows {ws : Workspace W}
    (h : ws.has_windows = false) : ws.windows = [] := by
  rw [has_windows] at h
  have : ws.windows.isEmpty = true := by simpa using h
  exact List.isEmpty_iff.mp this

/-- The round trip of `set_output` used by disconnect/reconnect: unbinding,
rebinding to a different output, then rebinding to the original output
restores the workspace exactly (given its view size was in sync). -/
theorem set_output_round_trip (ws : Workspace W) (o o' : Output)
    (h1 : ws.output = some o) (h2 : ws.view_size = output_size o)
    (hne : o' ≠ o) :
    ((ws.set_output none).set_output (some o')).set_output (some o) = ws := by
  cases ws with
  | mk orig out vs cols aci voff =>
    simp only at h1 h2
    subst h1 h2
    have e1 : (⟨orig, some o, output_size o, cols, aci, voff⟩ :
        Workspace W).set_output none =
        ⟨orig, none, output_size o, cols, aci, voff⟩ := by
      simp [set_output]
    have e2 : (⟨orig, none, output_size o, cols, aci, voff⟩ :
        Workspace W).set_output (some o') =
        ⟨orig, some o', output_size o', cols, aci, voff⟩ := by
      simp [set_output]
    have e3 : (⟨orig, some o', output_size o', cols, aci, voff⟩ :
        Workspace W).set_output (some o) =
        ⟨orig, some o, output_size o, cols, aci, voff⟩ := by
      simp [set_output]
      intro heq
      exact absurd heq hne
    rw [e1, e2, e3]

theorem set_output_self (ws : Workspace W) (o : Output)
    (h : ws.output = some o) : ws.set_output (some o) = ws := by
  rw [set_output.eq_def, if_pos h]

end Workspace

/-! ## Generic list helpers for the hotplug proofs -/

theorem mapM_eq_some_self {α : Type} {f : α → Option α} {l : List α}
    (h : ∀ x ∈ l, f x = some x) : l.mapM f = some l := by
  induction l with
  | nil => rfl
  | cons a t ih =>
    rw [List.mapM_cons, h a (List.mem_cons_self a t),
      ih (fun x hx => h x (List.mem_cons_of_mem a hx))]
    rfl

theorem getLast?_set_ne {α : Type} (l : List α) (i : Nat) (x : α)
    (h : i ≠ l.length - 1) : (l.set i x).getLast? = l.getLast? := by
  rw [List.getLast?_eq_getElem?, List.getLast?_eq_getElem?, List.length_set]
  exact List.getElem?_set_ne h

theorem getLast?_eraseIdx_lt {α : Type} (l : List α) (i : Nat)
    (h : i + 1 < l.length) : (l.eraseIdx i).getLast? = l.getLast? := by
  rw [List.eraseIdx_eq_take_drop_succ]
  have hd : l.drop (i + 1) ≠ [] := by
    rw [ne_eq, List.drop_eq_nil_iff]
    omega
  rw [List.getLast?_append_of_ne_nil _ hd, List.getLast?_eq_getElem?,
    List.getLast?_eq_getElem?, List.getElem?_drop, List.length_drop]
  congr 1
  omega

/-- Flattening a list of lists permutes to the element at `i` in front of
the flattening of the remainder. -/
theorem flatten_perm_getElem_append_eraseIdx {β : Type} (L : List (List β))
    (i : Nat) (x : List β) (h : L[i]? = some x) :
    L.flatten.Perm (x ++ (L.eraseIdx i).flatten) := by
  induction L generalizing i with
  | nil => simp at h
  | cons a t ih =>
    cases i with
    | zero =>
      rw [List.getElem?_cons_zero, Option.some.injEq] at h
      subst h
      simp
    | succ j =>
      rw [List.getElem?_cons_succ] at h
      rw [List.flatten_cons, List.eraseIdx_cons_succ, List.flatten_cons]
      have h1 : (a ++ t.flatten).Perm (a ++ (x ++ (t.eraseIdx j).flatten)) :=
        List.Perm.append_left a (ih j h)
      have h2 : (a ++ (x ++ (t.eraseIdx j).flatten)).Perm
          (x ++ (a ++ (t.eraseIdx j).flatten)) := by
        rw [← List.append_assoc, ← List.append_assoc]
        exact List.Perm.append_right _ List.perm_append_comm
      exact h1.trans h2

/-! ## C4 — removing an absent window -/

/-- An output named 1 of size 800×600. -/
def outA : Output := { name := 1, size := { w := 800, h := 600 } }

/-- An output named 2 of size 1024×768. -/
def outB : Output := { name := 2, size := { w := 1024, h := 768 } }

/-- A workspace on `outA` holding the single window `5`. -/
def c4Ws : Workspace Nat :=
  { original_output := 1
    output := some outA
    view_size := { w := 800, h := 600 }
    columns := [{ windows := [5], active_window_idx := 0
                  width := ColumnWidth.Fixed 100 }]
    active_column_idx := 0
    view_offset := 0 }

/-- A valid one-monitor set: window `5` plus a trailing empty workspace. -/
def c4Ms : MonitorSet Nat :=
  .Normal [{ output := outA
             workspaces := [c4Ws, Workspace.mkNew outA]
             active_workspace_idx := 0 }] 0 0

/-- C4 counterexample: removing window `99`, which is present nowhere, from
`c4Ms` silently returns the set unchanged — it does not abort, contradicting
the claim that this is a fatal programming error and never a silent no-op. -/
theorem c4_counterexample :
    c4Ms.remove_window 99 = some c4Ms := by decide

/-- C4 (amended): `MonitorSet::remove_window` with a window present in no
workspace is a silent no-op returning the set unchanged; the fatal abort the
claim describes exists only at the `Workspace::remove_window` level, whose
`position(..).unwrap()` panics when the workspace does not hold the
window. -/
theorem c4_remove_absent_window {W : Type} [DecidableEq W]
    (ms : MonitorSet W) (ws : Workspace W) (w : W)
    (hms : w ∉ ms.all_windows) (hws : ws.has_window w = false) :
    ms.remove_window w = some ms ∧ ws.remove_window w = none := by
  constructor
  · have habs : ∀ ws' ∈ ms.all_workspaces, ws'.has_window w = false := by
      intro ws' hmem
      rw [Workspace.has_window]
      rw [MonitorSet.all_windows] at hms
      by_contra hcon
      have hw : w ∈ ws'.windows :=
        List.mem_of_elem_eq_true (Bool.of_not_eq_false hcon)
      exact hms (List.mem_flatten.mpr ⟨ws'.windows,
        List.mem_map_of_mem _ hmem, hw⟩)
    cases ms with
    | Normal monitors p a =>
      rw [MonitorSet.remove_window]
      have hmon : ∀ mon ∈ monitors, mon.remove_window_here w = some mon := by
        intro mon hmem
        rw [Monitor.remove_window_here]
        have : mon.workspaces.findIdx? (fun ws => ws.has_window w) = none := by
          rw [List.findIdx?_eq_none_iff]
          intro x hx
          exact habs x (by
            rw [MonitorSet.all_workspaces]
            exact List.mem_flatten.mpr ⟨mon.workspaces,
              List.mem_map_of_mem _ hmem, hx⟩)
        rw [this]
      rw [mapM_eq_some_self hmon]
      rfl
    | NoOutputs workspaces =>
      rw [MonitorSet.remove_window]
      have : workspaces.findIdx? (fun ws => ws.has_window w) = none := by
        rw [List.findIdx?_eq_none_iff]
        intro x hx
        exact habs x (by rw [MonitorSet.all_workspaces]; exact hx)
      rw [this]
  · rw [Workspace.remove_window]
    have : ws.columns.findIdx? (fun c => c.contains w) = none := by
      rw [List.findIdx?_eq_none_iff]
      intro c hc
      rw [Column.contains]
      by_contra hcon
      have hwmem : w ∈ c.windows :=
        List.mem_of_elem_eq_true (Bool.of_not_eq_false hcon)
      have : w ∈ ws.windows := by
        rw [Workspace.windows]
        exact List.mem_flatten.mpr ⟨c.windows, List.mem_map_of_mem _ hc, hwmem⟩
      rw [Workspace.has_window] at hws
      exact absurd (show ws.windows.contains w = true from
        List.elem_eq_true_of_mem this) (by
          rw [hws]
          exact Bool.false_ne_true)
    rw [this]

/-- C4 witness: the amended theorem at `c4Ms`, `c4Ws` and the absent
window `99`. -/
theorem c4_remove_absent_window_witness :
    (99 ∉ c4Ms.all_windows) ∧ (c4Ws.has_window 99 = false) ∧
    (c4Ms.remove_window 99 = some c4Ms ∧ c4Ws.remove_window 99 = none) :=
  ⟨by decide, by decide, c4_remove_absent_window c4Ms c4Ws 99
    (by decide) (by decide)⟩

/-! ## C9 — connecting an output does not disturb foreign workspaces -/

/-- C9: `add_output(O)` leaves unchanged the columns (hence windows and
column order) of every workspace whose `original_output` differs from `O`'s
identity: filtering all workspaces of the set to those of foreign origin
yields the same column lists before and after. -/
theorem c9_add_output_non_interference {W : Type} [DecidableEq W]
    (ms ms' : MonitorSet W) (o : Output) (h : ms.add_output o = some ms') :
    (ms'.all_workspaces.filter
      (fun ws => ws.original_output ≠ OutputId.new o)).map
        (fun ws => ws.columns) =
    (ms.all_workspaces.filter
      (fun ws => ws.original_output ≠ OutputId.new o)).map
        (fun ws => ws.columns) := by
  have hfun : ((fun ws => decide (ws.original_output ≠ OutputId.new o)) ∘
      (fun ws : Workspace W => ws.set_output (some o))) =
      (fun ws : Workspace W =>
        decide (ws.original_output ≠ OutputId.new o)) := by
    funext ws
    simp [Function.comp, Workspace.set_output_original_output]
  cases ms with
  | NoOutputs wss =>
    rw [MonitorSet.add_output] at h
    rw [Option.some.injEq] at h
    subst h
    rw [MonitorSet.all_workspaces, MonitorSet.all_workspaces]
    simp only [List.map_cons, List.map_nil, List.flatten_cons,
      List.flatten_nil, List.append_nil]
    rw [List.filter_map, hfun, List.filter_append]
    have hmk : List.filter
        (fun ws => decide (ws.original_output ≠ OutputId.new o))
        [(Workspace.mkNew o : Workspace W)] = [] := by
      simp [Workspace.mkNew, OutputId.new]
    rw [hmk, List.append_nil, List.map_map]
    exact List.map_congr_left
      (fun ws _ => by
        simp only [Function.comp_apply, Workspace.set_output_columns])
  | Normal monitors p a =>
    rw [MonitorSet.add_output] at h
    cases hp : monitors[p]? with
    | none => rw [hp] at h; cases h
    | some primary =>
      rw [hp] at h
      rw [Option.some.injEq] at h
      subst h
      obtain ⟨hplen, hpget⟩ := List.getElem?_eq_some.mp hp
      rw [MonitorSet.all_workspaces, MonitorSet.all_workspaces]
      -- decompose the monitor list around the primary
      have hmons : monitors = monitors.take p ++ primary ::
          monitors.drop (p + 1) := by
        conv_lhs => rw [← List.take_append_drop p monitors]
        rw [← List.getElem_cons_drop monitors p hplen, hpget]
      have hset : monitors.set p
          { primary with
            workspaces := primary.workspaces.filter
              (fun ws => ws.original_output ≠ OutputId.new o) } =
          monitors.take p ++
            { primary with
              workspaces := primary.workspaces.filter
                (fun ws => ws.original_output ≠ OutputId.new o) } ::
            monitors.drop (p + 1) := by
      -- the moved list consists purely of origin-`o` workspaces
        rw [List.set_eq_take_append_cons_drop, if_pos hplen]
      have hmoved : List.filter
          (fun ws => decide (ws.original_output ≠ OutputId.new o))
          ((if (primary.workspaces.filter
              (fun ws => ws.original_output = OutputId.new o)).all
              (fun ws => ws.has_windows) then
            (primary.workspaces.filter
              (fun ws => ws.original_output = OutputId.new o)) ++
              [Workspace.mkNew o]
          else
            (primary.workspaces.filter
              (fun ws => ws.original_output = OutputId.new o))).map
            (fun ws => ws.set_output (some o))) = [] := by
        rw [List.filter_map, hfun]
        rw [List.map_eq_nil_iff, List.filter_eq_nil_iff]
        intro y hy
        have hyorig : y.original_output = OutputId.new o := by
          by_cases hc : (primary.workspaces.filter
              (fun ws => ws.original_output = OutputId.new o)).all
              (fun ws => ws.has_windows)
          · rw [if_pos hc] at hy
            rcases List.mem_append.mp hy with hy1 | hy2
            · exact of_decide_eq_true (List.mem_filter.mp hy1).2
            · rw [List.mem_singleton] at hy2
              subst hy2
              rfl
          · rw [if_neg hc] at hy
            exact of_decide_eq_true (List.mem_filter.mp hy).2
        simp [hyorig]
      have hidem : List.filter
          (fun ws => decide (ws.original_output ≠ OutputId.new o))
          (List.filter (fun ws => decide (ws.original_output ≠ OutputId.new o))
            primary.workspaces) =
          List.filter (fun ws => decide (ws.original_output ≠ OutputId.new o))
            primary.workspaces := by
        rw [List.filter_filter]
        exact List.filter_congr (fun x _ => Bool.and_self _)
      rw [hset]
      conv_rhs => rw [hmons]
      simp only [List.map_append, List.map_cons, List.flatten_append,
        List.flatten_cons, List.filter_append, List.map_nil,
        List.flatten_nil, List.append_nil]
      rw [hmoved, hidem]
      simp

/-- A workspace currently displayed on `outA` but originating on `outB`
(its output disconnected earlier), holding the single window `7`. -/
def c9Ws : Workspace Nat :=
  { original_output := 2
    output := some outA
    view_size := { w := 800, h := 600 }
    columns := [{ windows := [7], active_window_idx := 0
                  width := ColumnWidth.Fixed 50 }]
    active_column_idx := 0
    view_offset := 0 }

/-- One monitor (`outA`, primary) holding `c9Ws` and a trailing empty
workspace. -/
def c9Ms : MonitorSet Nat :=
  .Normal [{ output := outA
             workspaces := [c9Ws, Workspace.mkNew outA]
             active_workspace_idx := 0 }] 0 0

/-- `c9Ms` after `add_output outB`: `c9Ws` moves (rebound) to the new
monitor for `outB`. -/
def c9MsAfter : MonitorSet Nat :=
  .Normal
    [{ output := outA
       workspaces := [Workspace.mkNew outA]
       active_workspace_idx := 0 },
     { output := outB
       workspaces := [{ c9Ws with
                        output := some outB
                        view_size := { w := 1024, h := 768 } },
                      Workspace.mkNew outB]
       active_workspace_idx := 0 }] 0 0

/-- C9 witness: the theorem applied to `c9Ms` and `outB`. -/
theorem c9_add_output_non_interference_witness :
    (c9Ms.add_output outB = some c9MsAfter) ∧
    (c9MsAfter.all_workspaces.filter
      (fun ws => ws.original_output ≠ OutputId.new outB)).map
        (fun ws => ws.columns) =
    (c9Ms.all_workspaces.filter
      (fun ws => ws.original_output ≠ OutputId.new outB)).map
        (fun ws => ws.columns) :=
  ⟨by decide, c9_add_output_non_interference c9Ms c9MsAfter outB (by decide)⟩

/-! ## C5 — what survives add/remove-window sequences -/

/-- The last workspace of the monitor exists and has no windows. -/
def Monitor.last_workspace_empty {W : Type} [DecidableEq W]
    (mon : Monitor W) : Bool :=
  match mon.workspaces.getLast? with
  | none => false
  | some ws => !ws.has_windows

/-- Modelled from the claim wording: the workspace list "ends in exactly one
empty workspace" — the last workspace is empty and the one before it (when
present) is not. -/
def Monitor.ends_in_exactly_one_empty {W : Type} [DecidableEq W]
    (mon : Monitor W) : Bool :=
  match mon.workspaces.getLast? with
  | none => false
  | some ws =>
    !ws.has_windows &&
      (match mon.workspaces.dropLast.getLast? with
       | none => true
       | some ws2 => ws2.has_windows)

/-- Modelled from the claim wording: no two consecutive empty workspaces of
which neither is the active one. -/
def Monitor.no_consecutive_empty_inactive {W : Type} [DecidableEq W]
    (mon : Monitor W) : Bool :=
  (List.range (mon.workspaces.length - 1)).all (fun i =>
    match mon.workspaces[i]?, mon.workspaces[i + 1]? with
    | some x, some y =>
      !(!x.has_windows && !y.has_windows &&
        !(i == mon.active_workspace_idx) &&
        !(i + 1 == mon.active_workspace_idx))
    | _, _ => true)

/-- Modelled from the claim wording of C5: every monitor ends in exactly one
empty workspace and has no two consecutive empty non-active workspaces. -/
def MonitorSet.claim_sentinel {W : Type} [DecidableEq W] :
    MonitorSet W → Bool
  | .Normal monitors _ _ =>
    monitors.all (fun mon =>
      mon.ends_in_exactly_one_empty && mon.no_consecutive_empty_inactive)
  | .NoOutputs _ => true

/-- The invariant that does hold: every monitor's workspace list is nonempty
and ends in an empty workspace. -/
def MonitorSet.sentinel_invariant {W : Type} [DecidableEq W] :
    MonitorSet W → Bool
  | .Normal monitors _ _ => monitors.all (fun mon => mon.last_workspace_empty)
  | .NoOutputs _ => true

/-- `c4Ms` after removing window `5`: the active workspace stays although
emptied, leaving two trailing empty workspaces. -/
def c5MsAfter : MonitorSet Nat :=
  .Normal [{ output := outA
             workspaces := [{ c4Ws with columns := [] },
                            Workspace.mkNew outA]
             active_workspace_idx := 0 }] 0 0

/-- C5 counterexample: removing the only window from the active workspace of
`c4Ms` leaves `[empty (active), empty sentinel]` — the list now ends in two
empty workspaces, not exactly one, so the claimed invariant fails after this
one-element operation sequence. -/
theorem c5_counterexample :
    applyOps c4Ms [LayoutOp.removeWindow 5] = some c5MsAfter ∧
    c4Ms.claim_sentinel = true ∧
    c5MsAfter.claim_sentinel = false := by
  refine ⟨by decide, by decide, by decide⟩

/-- Pushing facts through a successful `mapM` over `Option`. -/
theorem mapM_option_forall {α β : Type} {f : α → Option β}
    {l : List α} {l' : List β} {P : α → Prop} {Q : β → Prop}
    (h : l.mapM f = some l') (hP : ∀ x ∈ l, P x)
    (hstep : ∀ x y, P x → f x = some y → Q y) : ∀ y ∈ l', Q y := by
  induction l generalizing l' with
  | nil =>
    rw [List.mapM_nil] at h
    cases h
    intro y hy
    cases hy
  | cons a t ih =>
    rw [List.mapM_cons] at h
    cases hfa : f a with
    | none => rw [hfa] at h; cases h
    | some b =>
      rw [hfa] at h
      cases hft : t.mapM f with
      | none => rw [hft] at h; cases h
      | some t' =>
        rw [hft] at h
        simp only [Option.bind_eq_bind, Option.some_bind, Option.pure_def,
          Option.some.injEq] at h
        subst h
        intro y hy
        rcases List.mem_cons.mp hy with rfl | hy'
        · exact hstep a y (hP a (List.mem_cons_self a t)) hfa
        · exact ih hft (fun x hx => hP x (List.mem_cons_of_mem a hx)) y hy'

/-- A workspace that holds a window has windows. -/
theorem Workspace.has_windows_of_has_window {W : Type} [DecidableEq W]
    {ws : Workspace W} {w : W} (h : ws.has_window w = true) :
    ws.has_windows = true := by
  rw [Workspace.has_window] at h
  rw [Workspace.has_windows]
  have : w ∈ ws.windows := List.mem_of_elem_eq_true h
  cases hw : ws.windows with
  | nil => rw [hw] at this; cases this
  | cons a t => rfl

/-- `Monitor.remove_window_here` keeps the trailing workspace empty. -/
theorem Monitor.remove_window_here_preserves_last_empty {W : Type}
    [DecidableEq W] {mon mon' : Monitor W} {w : W}
    (h : mon.remove_window_here w = some mon')
    (hinv : mon.last_workspace_empty = true) :
    mon'.last_workspace_empty = true := by
  rw [Monitor.remove_window_here] at h
  cases hfind : mon.workspaces.findIdx? (fun ws => ws.has_window w) with
  | none =>
    simp only [hfind, Option.some.injEq] at h
    subst h
    exact hinv
  | some idx =>
    simp only [hfind] at h
    cases hget : mon.workspaces[idx]? with
    | none => simp only [hget] at h; cases h
    | some ws =>
      simp only [hget] at h
      cases hrem : ws.remove_window w with
      | none => simp only [hrem] at h; cases h
      | some ws' =>
        simp only [hrem, Option.some.injEq] at h
        subst h
        -- the workspace found holds the window, the last one is empty,
        -- hence the found index is not the last
        obtain ⟨hidxlt, hfidx⟩ := List.findIdx?_eq_some_iff_findIdx_eq.mp hfind
        have hpred : (mon.workspaces[idx]).has_window w = true := by
          have := @List.findIdx_getElem _ (fun ws => ws.has_window w)
            mon.workspaces (by rw [hfidx]; exact hidxlt)
          simpa [hfidx] using this
        obtain ⟨hlt', hgetv⟩ := List.getElem?_eq_some.mp hget
        rw [hgetv] at hpred
        rw [Monitor.last_workspace_empty] at hinv
        cases hlast : mon.workspaces.getLast? with
        | none => rw [hlast] at hinv; cases hinv
        | some lastws =>
          rw [hlast] at hinv
          have hlastempty : lastws.has_windows = false := by
            simpa using hinv
          have hidxne : idx ≠ mon.workspaces.length - 1 := by
            intro hcon
            have hlen0 : mon.workspaces.length ≠ 0 := by
              intro h0
              omega
            have heq : mon.workspaces.getLast? =
                mon.workspaces[mon.workspaces.length - 1]? :=
              List.getLast?_eq_getElem? mon.workspaces
            rw [hlast, ← hcon, hget] at heq
            rw [Option.some.injEq] at heq
            subst heq
            rw [Workspace.has_windows_of_has_window hpred] at hlastempty
            cases hlastempty
          have hlen2 : idx + 1 < mon.workspaces.length := by omega
          have hwss : (if ¬ws'.has_windows = true ∧
              idx ≠ mon.active_workspace_idx ∧
              idx ≠ mon.workspaces.length - 1 then
                (mon.workspaces.set idx ws').eraseIdx idx
              else mon.workspaces.set idx ws').getLast? =
              mon.workspaces.getLast? := by
            split
            · rw [getLast?_eraseIdx_lt _ _ (by rw [List.length_set]; omega),
                getLast?_set_ne _ _ _ hidxne]
            · rw [getLast?_set_ne _ _ _ hidxne]
          simp only [Monitor.last_workspace_empty]
          rw [hwss, hlast]
          simp [hlastempty]

/-- `add_window` preserves the sentinel invariant. -/
theorem add_window_preserves_sentinel {W : Type} [DecidableEq W]
    {ms ms' : MonitorSet W} {mi wi : Nat} {w : W} {act : Bool}
    (h : ms.add_window mi wi w act = some ms')
    (hinv : ms.sentinel_invariant = true) :
    ms'.sentinel_invariant = true := by
  cases ms with
  | NoOutputs wss => rw [MonitorSet.add_window] at h; cases h
  | Normal monitors p a =>
    rw [MonitorSet.add_window] at h
    cases hmi : monitors[mi]? with
    | none => simp only [hmi] at h; cases h
    | some mon =>
      simp only [hmi] at h
      cases hwi : mon.workspaces[wi]? with
      | none => simp only [hwi] at h; cases h
      | some ws =>
        simp only [hwi, Option.some.injEq] at h
        subst h
        rw [MonitorSet.sentinel_invariant] at hinv ⊢
        rw [List.all_eq_true] at hinv ⊢
        intro x hx
        rcases List.mem_or_eq_of_mem_set hx with hmem | rfl
        · exact hinv x hmem
        · -- the updated monitor
          have hmonmem : mon ∈ monitors := List.getElem?_mem hmi
          have hmoninv := hinv mon hmonmem
          have hw2 : (if act = true then
              { mon with active_workspace_idx := wi }
            else mon).workspaces = mon.workspaces := by
            cases act <;> rfl
          have ho2 : (if act = true then
              { mon with active_workspace_idx := wi }
            else mon).output = mon.output := by
            cases act <;> rfl
          rw [hw2, ho2]
          simp only [Monitor.last_workspace_empty]
          by_cases hwl : wi = mon.workspaces.length - 1
          · rw [if_pos hwl, List.getLast?_concat]
            rfl
          · rw [if_neg hwl,
              getLast?_set_ne mon.workspaces wi (ws.add_window w act) hwl]
            exact hmoninv

/-- `remove_window` preserves the sentinel invariant. -/
theorem remove_window_preserves_sentinel {W : Type} [DecidableEq W]
    {ms ms' : MonitorSet W} {w : W}
    (h : ms.remove_window w = some ms')
    (hinv : ms.sentinel_invariant = true) :
    ms'.sentinel_invariant = true := by
  cases ms with
  | Normal monitors p a =>
    rw [MonitorSet.remove_window] at h
    cases hmapM : monitors.mapM
        (fun (mon : Monitor W) => mon.remove_window_here w) with
    | none => rw [hmapM] at h; cases h
    | some monitors' =>
      rw [hmapM] at h
      simp only [Option.map_some', Option.some.injEq] at h
      subst h
      rw [MonitorSet.sentinel_invariant] at hinv ⊢
      rw [List.all_eq_true] at hinv ⊢
      exact mapM_option_forall hmapM hinv
        (fun x y hx hxy =>
          Monitor.remove_window_here_preserves_last_empty hxy hx)
  | NoOutputs wss =>
    rw [MonitorSet.remove_window] at h
    cases hfind : wss.findIdx? (fun ws => ws.has_window w) with
    | none =>
      simp only [hfind, Option.some.injEq] at h
      subst h
      rfl
    | some idx =>
      simp only [hfind] at h
      cases hget : wss[idx]? with
      | none => simp only [hget] at h; cases h
      | some ws =>
        simp only [hget] at h
        cases hrem : ws.remove_window w with
        | none => simp only [hrem] at h; cases h
        | some ws' =>
          simp only [hrem, Option.some.injEq] at h
          subst h
          rfl

/-- Any single layout command preserves the sentinel invariant. -/
theorem applyOp_preserves_sentinel {W : Type} [DecidableEq W]
    {ms ms' : MonitorSet W} {op : LayoutOp W}
    (h : applyOp ms op = some ms') (hinv : ms.sentinel_invariant = true) :
    ms'.sentinel_invariant = true := by
  cases op with
  | addWindow mi wi w act => exact add_window_preserves_sentinel h hinv
  | removeWindow w => exact remove_window_preserves_sentinel h hinv

/-- C5 (amended): starting from a set in which every monitor's workspace
list ends in an empty workspace, any sequence of `add_window` /
`remove_window` commands preserves that: each monitor's list still ends in
an empty workspace.  (It may end in more than one empty workspace, and two
consecutive empty non-active workspaces can occur, so the claim's stronger
wording fails — see the counterexample.) -/
theorem c5_sentinel_invariant_preserved {W : Type} [DecidableEq W]
    (ms ms' : MonitorSet W) (ops : List (LayoutOp W))
    (h : applyOps ms ops = some ms')
    (hinv : ms.sentinel_invariant = true) :
    ms'.sentinel_invariant = true := by
  induction ops generalizing ms with
  | nil =>
    rw [applyOps, List.foldlM_nil, Option.pure_def, Option.some.injEq] at h
    subst h
    exact hinv
  | cons op rest ih =>
    rw [applyOps, List.foldlM_cons] at h
    cases hstep : applyOp ms op with
    | none => rw [hstep] at h; cases h
    | some ms1 =>
      rw [hstep] at h
      simp only [Option.bind_eq_bind, Option.some_bind] at h
      exact ih ms1 h (applyOp_preserves_sentinel hstep hinv)

/-- C5 witness: the amended theorem applied to `c4Ms` and the one-command
sequence removing window `5`. -/
theorem c5_sentinel_invariant_preserved_witness :
    (applyOps c4Ms [LayoutOp.removeWindow 5] = some c5MsAfter) ∧
    (c4Ms.sentinel_invariant = true) ∧
    (c5MsAfter.sentinel_invariant = true) :=
  ⟨by decide, by decide,
    c5_sentinel_invariant_preserved c4Ms c5MsAfter
      [LayoutOp.removeWindow 5] (by decide) (by decide)⟩

/-! ## C10 — `remove_output` loses no window and keeps survivor order -/

/-- All windows of one monitor. -/
def Monitor.monitor_windows {W : Type} [DecidableEq W] (mon : Monitor W) :
    List W :=
  (mon.workspaces.map (fun ws => ws.windows)).flatten

/-- The workspace list of the primary monitor (or the orphan list). -/
def MonitorSet.primary_workspaces {W : Type} [DecidableEq W] :
    MonitorSet W → List (Workspace W)
  | .Normal monitors primary_idx _ =>
    (monitors[primary_idx]?).elim [] (fun mon => mon.workspaces)
  | .NoOutputs workspaces => workspaces

theorem MonitorSet.all_windows_normal {W : Type} [DecidableEq W]
    (monitors : List (Monitor W)) (p a : Nat) :
    (MonitorSet.Normal monitors p a : MonitorSet W).all_windows =
      (monitors.map (fun mon => mon.monitor_windows)).flatten := by
  rw [MonitorSet.all_windows, MonitorSet.all_workspaces, List.map_flatten,
    List.flatten_flatten, List.map_map, List.map_map]
  rfl

/-- Setting an index of a list of lists permutes the flattening to the new
element in front of the flattening with the old element removed. -/
theorem flatten_set_perm {β : Type} (L : List (List β)) (i : Nat)
    (x y : List β) (h : L[i]? = some x) :
    ((L.set i y).flatten).Perm (y ++ (L.eraseIdx i).flatten) := by
  induction L generalizing i with
  | nil => simp at h
  | cons a t ih =>
    cases i with
    | zero =>
      rw [List.getElem?_cons_zero, Option.some.injEq] at h
      subst h
      simp
    | succ j =>
      rw [List.getElem?_cons_succ] at h
      rw [List.set_cons_succ, List.flatten_cons, List.eraseIdx_cons_succ,
        List.flatten_cons]
      have h1 : (a ++ (t.set j y).flatten).Perm
          (a ++ (y ++ (t.eraseIdx j).flatten)) :=
        List.Perm.append_left a (ih j h)
      have h2 : (a ++ (y ++ (t.eraseIdx j).flatten)).Perm
          (y ++ (a ++ (t.eraseIdx j).flatten)) := by
        rw [← List.append_assoc, ← List.append_assoc]
        exact List.Perm.append_right _ List.perm_append_comm
      exact h1.trans h2

theorem eraseIdx_map {α β : Type} (f : α → β) (l : List α) (i : Nat) :
    (l.map f).eraseIdx i = (l.eraseIdx i).map f := by
  rw [List.eraseIdx_eq_take_drop_succ, List.eraseIdx_eq_take_drop_succ,
    List.map_append, List.map_take, List.map_drop]

/-- Dropping the empty workspaces does not change the flattened windows. -/
theorem flatten_windows_filter {W : Type} [DecidableEq W]
    (l : List (Workspace W)) :
    (((l.filter (fun ws => ws.has_windows)).map
      (fun ws => ws.windows)).flatten) =
    ((l.map (fun ws => ws.windows)).flatten) := by
  induction l with
  | nil => rfl
  | cons a t ih =>
    by_cases ha : a.has_windows = true
    · rw [List.filter_cons_of_pos ha, List.map_cons, List.flatten_cons,
        List.map_cons, List.flatten_cons, ih]
    · rw [List.filter_cons_of_neg (by simpa using ha), List.map_cons,
        List.flatten_cons,
        Workspace.windows_eq_nil_of_not_has_windows
          (Bool.eq_false_iff.mpr ha), List.nil_append, ih]

/-- Rebinding workspaces does not change the flattened windows. -/
theorem map_windows_set_output {W : Type} [DecidableEq W]
    (l : List (Workspace W)) (o : Option Output) :
    (l.map (fun ws => ws.set_output o)).map (fun ws => ws.windows) =
      l.map (fun ws => ws.windows) := by
  rw [List.map_map]
  exact List.map_congr_left
    (fun ws _ => by simp [Function.comp, Workspace.set_output_windows])

/-- Unbinding then filtering commutes into filtering then unbinding. -/
theorem filter_has_windows_map_set_output {W : Type} [DecidableEq W]
    (l : List (Workspace W)) (o : Option Output) :
    (l.map (fun ws => ws.set_output o)).filter (fun ws => ws.has_windows) =
      (l.filter (fun ws => ws.has_windows)).map
        (fun ws => ws.set_output o) := by
  rw [List.filter_map]
  have : ((fun ws : Workspace W => ws.has_windows) ∘
      (fun ws : Workspace W => ws.set_output o)) =
      (fun ws : Workspace W => ws.has_windows) := by
    funext ws
    simp [Function.comp, Workspace.set_output_has_windows]
  rw [this]

/-- Rebinding workspaces does not change their columns. -/
theorem map_columns_set_output {W : Type} [DecidableEq W]
    (l : List (Workspace W)) (o : Option Output) :
    (l.map (fun ws => ws.set_output o)).map (fun ws => ws.columns) =
      l.map (fun ws => ws.columns) := by
  rw [List.map_map]
  exact List.map_congr_left
    (fun ws _ => by simp [Function.comp, Workspace.set_output_columns])

theorem perm_append_swap {β : Type} (a b c : List β) :
    (a ++ (b ++ c)).Perm (b ++ (a ++ c)) := by
  rw [← List.append_assoc, ← List.append_assoc]
  exact List.Perm.append_right c List.perm_append_comm

/-- C10: `remove_output(O)` never loses a window — the windows of the
resulting set are a permutation of the original windows — and the non-empty
workspaces of the removed monitor appear on the new primary monitor (or as
the orphan list), contiguously and in their original relative order (their
columns unchanged). -/
theorem c10_remove_output_preserves_windows {W : Type} [DecidableEq W]
    (monitors : List (Monitor W)) (p a : Nat) (o : Output) (idx : Nat)
    (M : Monitor W) (ms' : MonitorSet W)
    (hfind : monitors.findIdx? (fun mon => mon.output = o) = some idx)
    (hM : monitors[idx]? = some M)
    (h : (MonitorSet.Normal monitors p a : MonitorSet W).remove_output o =
      some ms') :
    ms'.all_windows.Perm
      (MonitorSet.Normal monitors p a : MonitorSet W).all_windows ∧
    ∃ pre post, ms'.primary_workspaces.map (fun ws => ws.columns) =
      pre ++ ((M.workspaces.filter (fun ws => ws.has_windows)).map
        (fun ws => ws.columns)) ++ post := by
  rw [MonitorSet.remove_output] at h
  simp only [hfind, hM] at h
  by_cases hemp : (monitors.eraseIdx idx).isEmpty = true
  · rw [if_pos hemp] at h
    rw [Option.some.injEq] at h
    subst h
    -- the removed monitor was the only one
    have hidxlt : idx < monitors.length := (List.getElem?_eq_some.mp hM).1
    have hlen1 : monitors.length = 1 := by
      rw [List.isEmpty_iff, List.eraseIdx_eq_take_drop_succ] at hemp
      have h1 := List.append_eq_nil.mp hemp
      have h2 : monitors.length - (idx + 1) = 0 := by
        have := congrArg List.length h1.2
        rw [List.length_drop] at this
        simpa using this
      have h3 : min idx monitors.length = 0 := by
        have := congrArg List.length h1.1
        rw [List.length_take] at this
        simpa using this
      omega
    have hidx0 : idx = 0 := by omega
    subst hidx0
    have hmons : monitors = [M] := by
      cases monitors with
      | nil => cases hM
      | cons m t =>
        rw [List.getElem?_cons_zero, Option.some.injEq] at hM
        subst hM
        rw [List.length_cons] at hlen1
        have : t = [] := List.length_eq_zero.mp (by omega)
        rw [this]
    subst hmons
    constructor
    · -- windows preserved (in fact equal)
      have : (MonitorSet.NoOutputs
          ((M.workspaces.map (fun ws => ws.set_output none)).filter
            (fun ws => ws.has_windows)) : MonitorSet W).all_windows =
          (MonitorSet.Normal [M] p a : MonitorSet W).all_windows := by
        rw [MonitorSet.all_windows, MonitorSet.all_workspaces,
          MonitorSet.all_windows_normal]
        rw [filter_has_windows_map_set_output, map_windows_set_output,
          flatten_windows_filter]
        simp [Monitor.monitor_windows]
      rw [this]
    · refine ⟨[], [], ?_⟩
      rw [MonitorSet.primary_workspaces]
      rw [filter_has_windows_map_set_output, map_columns_set_output]
      simp
  · rw [if_neg hemp] at h
    cases hp' : (monitors.eraseIdx idx)[if p ≥ idx then p - 1 else p]? with
    | none => rw [hp'] at h; cases h
    | some primary =>
      simp only [hp'] at h
      cases hlast : primary.workspaces.getLast? with
      | none => simp only [hlast] at h; cases h
      | some lastws =>
        simp only [hlast, Option.some.injEq] at h
        subst h
        obtain ⟨ys, hys⟩ := List.getLast?_eq_some_iff.mp hlast
        have hgetpM : ((monitors.eraseIdx idx).map
            (fun mon => mon.monitor_windows))[if p ≥ idx then p - 1
              else p]? = some primary.monitor_windows := by
          rw [List.getElem?_map, hp']
          rfl
        have hgetM : (monitors.map
            (fun mon => mon.monitor_windows))[idx]? =
            some M.monitor_windows := by
          rw [List.getElem?_map, hM]
          rfl
        -- windows of the rebound survivors = windows of the removed monitor
        have hS : ((((M.workspaces.map (fun ws => ws.set_output none)).filter
            (fun ws => ws.has_windows)).map
              (fun ws => ws.set_output (some primary.output))).map
                (fun ws => ws.windows)).flatten = M.monitor_windows := by
          rw [map_windows_set_output, filter_has_windows_map_set_output,
            map_windows_set_output, flatten_windows_filter]
          rfl
        constructor
        · rw [MonitorSet.all_windows_normal, MonitorSet.all_windows_normal,
            List.map_set]
          have step1 := flatten_set_perm
            ((monitors.eraseIdx idx).map (fun mon => mon.monitor_windows))
            (if p ≥ idx then p - 1 else p)
            primary.monitor_windows
            ({ primary with
                workspaces := primary.workspaces.dropLast ++
                  ((M.workspaces.map (fun ws => ws.set_output none)).filter
                    (fun ws => ws.has_windows)).map
                      (fun ws => ws.set_output (some primary.output)) ++
                  [lastws] } : Monitor W).monitor_windows
            hgetpM
          have step2 := flatten_perm_getElem_append_eraseIdx
            (monitors.map (fun mon => mon.monitor_windows)) idx
            M.monitor_windows hgetM
          have step3 := flatten_perm_getElem_append_eraseIdx
            ((monitors.eraseIdx idx).map (fun mon => mon.monitor_windows))
            (if p ≥ idx then p - 1 else p)
            primary.monitor_windows hgetpM
          rw [eraseIdx_map] at step2
          -- name the recurring pieces
          have hprimsplit : primary.monitor_windows =
              ((ys.map (fun ws => ws.windows)).flatten) ++
                (lastws.windows ++ []) := by
            rw [Monitor.monitor_windows, hys, List.map_append,
              List.flatten_append]
            rfl
          have hnewsplit : ({ primary with
              workspaces := primary.workspaces.dropLast ++
                ((M.workspaces.map (fun ws => ws.set_output none)).filter
                  (fun ws => ws.has_windows)).map
                    (fun ws => ws.set_output (some primary.output)) ++
                [lastws] } : Monitor W).monitor_windows =
              ((ys.map (fun ws => ws.windows)).flatten) ++
                (M.monitor_windows ++ (lastws.windows ++ [])) := by
            rw [Monitor.monitor_windows]
            rw [hys, List.dropLast_concat]
            rw [List.map_append, List.map_append, List.flatten_append,
              List.flatten_append, hS]
            simp [List.append_assoc]
          refine (step1.trans ?_).trans step2.symm
          rw [hnewsplit]
          have hswap := perm_append_swap
            ((ys.map (fun ws => ws.windows)).flatten)
            M.monitor_windows
            ((lastws.windows ++ []) ++
              (((monitors.eraseIdx idx).map
                (fun mon => mon.monitor_windows)).eraseIdx
                  (if p ≥ idx then p - 1 else p)).flatten)
          refine (List.Perm.trans (by
            rw [List.append_assoc, List.append_assoc]) hswap).trans ?_
          refine List.Perm.append_left _ ?_
          refine List.Perm.trans (by
            rw [← List.append_assoc, ← hprimsplit]) ?_
          exact (List.Perm.append_left _ (List.Perm.refl _)).trans
            step3.symm
        · -- survивors sit contiguously before the trailing workspace
          refine ⟨ys.map (fun ws => ws.columns), [lastws.columns], ?_⟩
          have hset : ((monitors.eraseIdx idx).set
              (if p ≥ idx then p - 1 else p)
              ({ primary with
                workspaces := primary.workspaces.dropLast ++
                  ((M.workspaces.map (fun ws => ws.set_output none)).filter
                    (fun ws => ws.has_windows)).map
                      (fun ws => ws.set_output (some primary.output)) ++
                  [lastws] } : Monitor W))[(if p ≥ idx then p - 1
                    else p)]? = some
              ({ primary with
                workspaces := primary.workspaces.dropLast ++
                  ((M.workspaces.map (fun ws => ws.set_output none)).filter
                    (fun ws => ws.has_windows)).map
                      (fun ws => ws.set_output (some primary.output)) ++
                  [lastws] } : Monitor W) := by
            rw [List.getElem?_set_self', hp']
            rfl
          simp only [MonitorSet.primary_workspaces, hset, Option.elim]
          rw [hys, List.dropLast_concat]
          rw [List.map_append, List.map_append, map_columns_set_output,
            filter_has_windows_map_set_output, map_columns_set_output]
          rfl

/-- A workspace on `outA` holding window `3`. -/
def c10Wsa : Workspace Nat :=
  { original_output := 1
    output := some outA
    view_size := { w := 800, h := 600 }
    columns := [{ windows := [3], active_window_idx := 0
                  width := ColumnWidth.Fixed 40 }]
    active_column_idx := 0
    view_offset := 0 }

/-- A workspace on `outB` holding window `7`. -/
def c10Wsb : Workspace Nat :=
  { original_output := 2
    output := some outB
    view_size := { w := 1024, h := 768 }
    columns := [{ windows := [7], active_window_idx := 0
                  width := ColumnWidth.Fixed 50 }]
    active_column_idx := 0
    view_offset := 0 }

/-- The monitor for `outA`. -/
def c10MonA : Monitor Nat :=
  { output := outA
    workspaces := [c10Wsa, Workspace.mkNew outA]
    active_workspace_idx := 0 }

/-- The monitor for `outB`. -/
def c10MonB : Monitor Nat :=
  { output := outB
    workspaces := [c10Wsb, Workspace.mkNew outB]
    active_workspace_idx := 0 }

/-- The two-monitor set after `remove_output outB`: `outB`'s surviving
workspace is rebound to `outA` and spliced before the trailing empty
workspace. -/
def c10MsAfter : MonitorSet Nat :=
  .Normal
    [{ output := outA
       workspaces := [c10Wsa,
                      { c10Wsb with
                        output := some outA
                        view_size := { w := 800, h := 600 } },
                      Workspace.mkNew outA]
       active_workspace_idx := 0 }] 0 0

/-- C10 witness: the theorem applied to the two-monitor set, removing
`outB`. -/
theorem c10_remove_output_preserves_windows_witness :
    ([c10MonA, c10MonB].findIdx? (fun mon => mon.output = outB) = some 1) ∧
    ([c10MonA, c10MonB][1]? = some c10MonB) ∧
    ((MonitorSet.Normal [c10MonA, c10MonB] 0 0 :
      MonitorSet Nat).remove_output outB = some c10MsAfter) ∧
    (c10MsAfter.all_windows.Perm
      (MonitorSet.Normal [c10MonA, c10MonB] 0 0 :
        MonitorSet Nat).all_windows ∧
     ∃ pre post, c10MsAfter.primary_workspaces.map (fun ws => ws.columns) =
       pre ++ ((c10MonB.workspaces.filter (fun ws => ws.has_windows)).map
         (fun ws => ws.columns)) ++ post) :=
  ⟨by decide, by decide, by decide,
    c10_remove_output_preserves_windows [c10MonA, c10MonB] 0 0 outB 1
      c10MonB c10MsAfter (by decide) (by decide) (by decide)⟩

/-! ## C1 — disconnect/reconnect round trip -/

/-- A workspace living on primary `outA` but originating on a long-gone
output `3`, holding window `7`. -/
def c1WsForeign : Workspace Nat :=
  { original_output := 3
    output := some outA
    view_size := { w := 800, h := 600 }
    columns := [{ windows := [7], active_window_idx := 0
                  width := ColumnWidth.Fixed 60 }]
    active_column_idx := 0
    view_offset := 0 }

/-- The primary monitor (`outA`) holding the foreign workspace. -/
def c1MonO : Monitor Nat :=
  { output := outA
    workspaces := [c1WsForeign, Workspace.mkNew outA]
    active_workspace_idx := 0 }

/-- A secondary monitor for `outB`. -/
def c1MonB : Monitor Nat :=
  { output := outB
    workspaces := [Workspace.mkNew outB]
    active_workspace_idx := 0 }

/-- The monitors after disconnecting and reconnecting `outA`: the foreign
workspace stays behind on `outB` and `outA` comes back with only a fresh
empty workspace. -/
def c1AfterMonitors : List (Monitor Nat) :=
  [{ output := outB
     workspaces := [{ c1WsForeign with
                      output := some outB
                      view_size := { w := 1024, h := 768 } },
                    Workspace.mkNew outB]
     active_workspace_idx := 0 },
   { output := outA
     workspaces := [Workspace.mkNew outA]
     active_workspace_idx := 0 }]

/-- C1 counterexample: with a foreign-origin workspace on the primary `outA`,
`remove_output(outA)` followed by `add_output(outA)` does not restore
`outA`'s workspaces: no monitor for `outA` holds the original list, and the
workspace that was on `outA` (the one holding window `7`) now resides on the
monitor for `outB`. -/
theorem c1_counterexample :
    ((MonitorSet.Normal [c1MonO, c1MonB] 0 0 :
        MonitorSet Nat).remove_output outA).bind
      (fun m => m.add_output outA) =
      some (.Normal c1AfterMonitors 0 0) ∧
    (∀ mon ∈ c1AfterMonitors, mon.output = outA →
      mon.workspaces ≠ c1MonO.workspaces) ∧
    (∃ mon ∈ c1AfterMonitors, mon.output ≠ outA ∧
      7 ∈ mon.monitor_windows) := by
  refine ⟨by decide, by decide, ?_⟩
  refine ⟨c1AfterMonitors[0], by decide, by decide, by decide⟩

/-- C1 (amended): the disconnect/reconnect round trip restores the removed
monitor's workspaces exactly, under the conditions the code actually needs:
every workspace of the removed monitor `M` except its trailing fresh empty
one has windows, originates on `o`, is bound to `o` with its view size in
sync; no other monitor holds a workspace originating on `o`; and the other
monitors are non-degenerate.  Then `remove_output o` followed by
`add_output o` yields the untouched remaining monitors plus a new monitor
for `o` holding exactly `M`'s workspace list (same workspaces, same order),
so no workspace that was on `o` stays anywhere else. -/
theorem c1_affinity_round_trip {W : Type} [DecidableEq W]
    (monitors : List (Monitor W)) (p a : Nat) (o : Output) (idx : Nat)
    (M : Monitor W) (body : List (Workspace W))
    (hfind : monitors.findIdx? (fun mon => mon.output = o) = some idx)
    (hM : monitors[idx]? = some M)
    (hlen : 2 ≤ monitors.length)
    (hp : p < monitors.length)
    (hbody : M.workspaces = body ++ [Workspace.mkNew o])
    (hbodyp : ∀ ws ∈ body, ws.has_windows = true ∧
      ws.original_output = OutputId.new o ∧ ws.output = some o ∧
      ws.view_size = output_size o)
    (hothers : ∀ mon ∈ monitors.eraseIdx idx,
      (∀ ws ∈ mon.workspaces, ws.original_output ≠ OutputId.new o) ∧
      mon.workspaces ≠ [] ∧ mon.output ≠ o) :
    ((MonitorSet.Normal monitors p a : MonitorSet W).remove_output o).bind
      (fun m => m.add_output o) =
    some (MonitorSet.Normal ((monitors.eraseIdx idx) ++
        [{ output := o, workspaces := M.workspaces,
           active_workspace_idx := 0 }])
      (if p ≥ idx then p - 1 else p) (if a ≥ idx then a - 1 else a)) := by
  have hidxlt : idx < monitors.length := (List.getElem?_eq_some.mp hM).1
  have herlen : (monitors.eraseIdx idx).length = monitors.length - 1 := by
    rw [List.length_eraseIdx, if_pos hidxlt]
  have hempf : (monitors.eraseIdx idx).isEmpty = false := by
    cases hcase : monitors.eraseIdx idx with
    | nil =>
      rw [hcase] at herlen
      simp at herlen
      omega
    | cons x t => rfl
  have hp'lt : (if p ≥ idx then p - 1 else p) <
      (monitors.eraseIdx idx).length := by
    rw [herlen]
    split <;> omega
  obtain ⟨primary, hp'⟩ :
      ∃ x, (monitors.eraseIdx idx)[if p ≥ idx then p - 1 else p]? = some x :=
    ⟨_, List.getElem?_eq_getElem hp'lt⟩
  have hprimmem : primary ∈ monitors.eraseIdx idx := List.getElem?_mem hp'
  obtain ⟨hporig, hpne, hpout⟩ := hothers primary hprimmem
  have hplast : primary.workspaces.getLast? =
      some (primary.workspaces.getLast hpne) :=
    List.getLast?_eq_getLast _ hpne
  -- the survivors of the disconnect are exactly the unbound body
  have hsurv : (M.workspaces.map (fun ws => ws.set_output none)).filter
      (fun ws => ws.has_windows) =
      body.map (fun ws => ws.set_output none) := by
    rw [hbody, List.map_append, List.filter_append]
    have hb : (body.map (fun ws => ws.set_output none)).filter
        (fun ws => ws.has_windows) =
        body.map (fun ws => ws.set_output none) :=
      List.filter_eq_self.mpr (by
        intro x hx
        rw [List.mem_map] at hx
        obtain ⟨ws, hws, rfl⟩ := hx
        rw [Workspace.set_output_has_windows]
        exact (hbodyp ws hws).1)
    have hmk : ([(Workspace.mkNew o : Workspace W)].map
        (fun ws => ws.set_output none)).filter
        (fun ws => ws.has_windows) = [] := by
      rw [List.map_cons, List.map_nil, List.filter_cons_of_neg]
      · rfl
      · rw [Workspace.set_output_has_windows, Workspace.mkNew_has_windows]
        exact Bool.false_ne_true
    rw [hb, hmk, List.append_nil]
  -- step 1: the disconnect
  have h1 : (MonitorSet.Normal monitors p a : MonitorSet W).remove_output o =
      some (MonitorSet.Normal
        ((monitors.eraseIdx idx).set (if p ≥ idx then p - 1 else p)
          { primary with
            workspaces := (primary.workspaces.dropLast ++
              ((body.map (fun ws => ws.set_output none)).map
                (fun ws => ws.set_output (some primary.output))) ++
              [primary.workspaces.getLast hpne]) })
        (if p ≥ idx then p - 1 else p) (if a ≥ idx then a - 1 else a)) := by
    rw [MonitorSet.remove_output]
    simp only [hfind, hM]
    rw [if_neg (by rw [hempf]; exact Bool.false_ne_true)]
    simp only [hp', hplast, hsurv]
  rw [h1, Option.some_bind]
  -- step 2: the reconnect
  rw [MonitorSet.add_output]
  have hset : (((monitors.eraseIdx idx).set (if p ≥ idx then p - 1 else p)
      ({ primary with
        workspaces := (primary.workspaces.dropLast ++
          ((body.map (fun ws => ws.set_output none)).map
            (fun ws => ws.set_output (some primary.output))) ++
          [primary.workspaces.getLast hpne]) } :
        Monitor W)))[if p ≥ idx then p - 1 else p]? =
      some ({ primary with
        workspaces := (primary.workspaces.dropLast ++
          ((body.map (fun ws => ws.set_output none)).map
            (fun ws => ws.set_output (some primary.output))) ++
          [primary.workspaces.getLast hpne]) } : Monitor W) := by
    rw [List.getElem?_set_self', hp']
    rfl
  simp only [hset]
  have hB : ∀ x ∈ (body.map (fun ws => ws.set_output none)).map
      (fun ws => ws.set_output (some primary.output)),
      x.original_output = OutputId.new o ∧ x.has_windows = true := by
    intro x hx
    rw [List.mem_map] at hx
    obtain ⟨y, hy, rfl⟩ := hx
    rw [List.mem_map] at hy
    obtain ⟨ws, hws, rfl⟩ := hy
    rw [Workspace.set_output_original_output,
      Workspace.set_output_original_output,
      Workspace.set_output_has_windows, Workspace.set_output_has_windows]
    exact ⟨(hbodyp ws hws).2.1, (hbodyp ws hws).1⟩
  have hmoved : (primary.workspaces.dropLast ++
      ((body.map (fun ws => ws.set_output none)).map
        (fun ws => ws.set_output (some primary.output))) ++
      [primary.workspaces.getLast hpne]).filter
        (fun ws => decide (ws.original_output = OutputId.new o)) =
      (body.map (fun ws => ws.set_output none)).map
        (fun ws => ws.set_output (some primary.output)) := by
    rw [List.filter_append, List.filter_append]
    have hA : primary.workspaces.dropLast.filter
        (fun ws => decide (ws.original_output = OutputId.new o)) = [] :=
      List.filter_eq_nil_iff.mpr (by
        intro x hx
        simp only [decide_eq_true_eq]
        exact hporig x (List.dropLast_subset _ hx))
    have hBk : ((body.map (fun ws => ws.set_output none)).map
        (fun ws => ws.set_output (some primary.output))).filter
        (fun ws => decide (ws.original_output = OutputId.new o)) =
        (body.map (fun ws => ws.set_output none)).map
          (fun ws => ws.set_output (some primary.output)) :=
      List.filter_eq_self.mpr (fun x hx => decide_eq_true (hB x hx).1)
    have hC : ([primary.workspaces.getLast hpne] :
        List (Workspace W)).filter
        (fun ws => decide (ws.original_output = OutputId.new o)) = [] := by
      rw [List.filter_cons_of_neg]
      · rfl
      · simp only [decide_eq_true_eq]
        exact hporig _ (List.getLast_mem hpne)
    rw [hA, hBk, hC, List.nil_append, List.append_nil]
  have hkept : (primary.workspaces.dropLast ++
      ((body.map (fun ws => ws.set_output none)).map
        (fun ws => ws.set_output (some primary.output))) ++
      [primary.workspaces.getLast hpne]).filter
        (fun ws => decide (ws.original_output ≠ OutputId.new o)) =
      primary.workspaces := by
    rw [List.filter_append, List.filter_append]
    have hA : primary.workspaces.dropLast.filter
        (fun ws => decide (ws.original_output ≠ OutputId.new o)) =
        primary.workspaces.dropLast :=
      List.filter_eq_self.mpr (by
        intro x hx
        exact decide_eq_true (hporig x (List.dropLast_subset _ hx)))
    have hBk : ((body.map (fun ws => ws.set_output none)).map
        (fun ws => ws.set_output (some primary.output))).filter
        (fun ws => decide (ws.original_output ≠ OutputId.new o)) = [] :=
      List.filter_eq_nil_iff.mpr (by
        intro x hx
        simp only [decide_eq_true_eq]
        exact not_not_intro (hB x hx).1)
    have hC : ([primary.workspaces.getLast hpne] :
        List (Workspace W)).filter
        (fun ws => decide (ws.original_output ≠ OutputId.new o)) =
        [primary.workspaces.getLast hpne] := by
      rw [List.filter_cons_of_pos]
      · rfl
      · exact decide_eq_true (hporig _ (List.getLast_mem hpne))
    rw [hA, hBk, hC, List.append_nil, List.dropLast_append_getLast hpne]
  have hall : ((body.map (fun ws => ws.set_output none)).map
      (fun ws => ws.set_output (some primary.output))).all
      (fun ws => ws.has_windows) = true :=
    List.all_eq_true.mpr (fun x hx => (hB x hx).2)
  have hmap : ((body.map (fun ws => ws.set_output none)).map
      (fun ws => ws.set_output (some primary.output))).map
      (fun ws => ws.set_output (some o)) = body := by
    rw [List.map_map, List.map_map]
    refine (List.map_congr_left ?_).trans (List.map_id body)
    intro ws hws
    obtain ⟨hw1, hw2, hw3, hw4⟩ := hbodyp ws hws
    show ((ws.set_output none).set_output
      (some primary.output)).set_output (some o) = id ws
    rw [id]
    exact Workspace.set_output_round_trip ws o primary.output hw3 hw4 hpout
  have hmk2 : (Workspace.mkNew o : Workspace W).set_output (some o) =
      Workspace.mkNew o :=
    Workspace.set_output_self _ o rfl
  rw [hmoved, hkept, if_pos hall, List.map_append, hmap, List.map_cons,
    List.map_nil, hmk2, List.set_set]
  have heta : (Monitor.mk primary.output primary.workspaces
      primary.active_workspace_idx : Monitor W) = primary := rfl
  rw [heta, list_set_getElem?_self hp', hbody]

/-- C1 witness: the amended round-trip theorem applied to the two-monitor
set, disconnecting and reconnecting `outB`. -/
theorem c1_affinity_round_trip_witness :
    ([c10MonA, c10MonB].findIdx? (fun mon => mon.output = outB) = some 1) ∧
    ([c10MonA, c10MonB][1]? = some c10MonB) ∧
    (2 ≤ [c10MonA, c10MonB].length) ∧
    ((0 : Nat) < [c10MonA, c10MonB].length) ∧
    (c10MonB.workspaces = [c10Wsb] ++ [Workspace.mkNew outB]) ∧
    (∀ ws ∈ [c10Wsb], ws.has_windows = true ∧
      ws.original_output = OutputId.new outB ∧ ws.output = some outB ∧
      ws.view_size = output_size outB) ∧
    (∀ mon ∈ [c10MonA, c10MonB].eraseIdx 1,
      (∀ ws ∈ mon.workspaces, ws.original_output ≠ OutputId.new outB) ∧
      mon.workspaces ≠ [] ∧ mon.output ≠ outB) ∧
    ((MonitorSet.Normal [c10MonA, c10MonB] 0 0 :
        MonitorSet Nat).remove_output outB).bind
      (fun m => m.add_output outB) =
    some (MonitorSet.Normal (([c10MonA, c10MonB].eraseIdx 1) ++
        [{ output := outB, workspaces := c10MonB.workspaces,
           active_workspace_idx := 0 }])
      (if 0 ≥ 1 then 0 - 1 else 0) (if 0 ≥ 1 then 0 - 1 else 0)) :=
  ⟨by decide, by decide, by decide, by decide, by decide, by decide,
    by decide,
    c1_affinity_round_trip [c10MonA, c10MonB] 0 0 outB 1 c10MonB [c10Wsb]
      (by decide) (by decide) (by decide) (by decide) (by decide)
      (by decide) (by decide)⟩
